import Mathlib

/-!
# A verification of the Lume site orchestrator (`site.ts`)

Shallow embedding of the core orchestration class `LumeSite`:
the event bus (`addEventListener` / `dispatchEvent`), the full-build and
incremental-update pipelines (`build` / `update`), the changed-file
classifier embedded in the update loop, the URL resolver (`url`), and the
registration helpers (`copy`, `ignore`, the constructor's auto-ignore of
the destination directory).

Modelling conventions:
* Paths are plain strings over the POSIX separator (`SEP = "/"`); machine
  strings are Lean `String`s (a `List Char` in this toolchain).
* JavaScript functions that are platform builtins (`decodeURI`, the WHATWG
  `URL` constructor) are parameters of the embedding: the claims under
  study never depend on their behaviour.
* Collaborators that live outside the given sources (`SiteSource`,
  `ScriptRunner`, the Deno std `path` module, `normalizePath` from
  `utils.ts`) are modelled from the spec; each such definition carries a
  doc comment starting with `Modelled from the spec:`.
* Effects (copying, loading, saving, metrics) are recorded as an explicit
  trace of operations (`Op`), so that pipeline ordering is a statement
  about a list.
-/

/-! ## String helpers (JS semantics) -/

/-- JS `String.prototype.startsWith`: character-list prefix test. -/
def strStarts (s pre : String) : Bool :=
  pre.data.isPrefixOf s.data

/-- JS `String.prototype.includes` for a fixed search string:
substring occurrence over character lists. -/
def listHasSub (pat : List Char) : List Char → Bool
  | [] => pat.isPrefixOf ([] : List Char)
  | c :: rest => pat.isPrefixOf (c :: rest) || listHasSub pat rest

/-- JS `String.prototype.includes`. -/
def strHasSub (s pat : String) : Bool :=
  listHasSub pat.data s.data

/-! ## The Deno std `path` module (POSIX flavour)

`site.ts` imports `join`, `posix` and `SEP` from `deps/path.ts`, a
re-export of the Deno standard library `path` module, which is not among
the given sources. Modelled from the spec and the std library's documented
behaviour: `join` concatenates the non-empty components with `/` and
normalizes the result, where normalization collapses `//`, resolves `.`
and `..` segments (`..` at the root of an absolute path is dropped),
preserves a trailing separator, and returns `.` for an empty result. -/

/-- Split a character list on `/` (the POSIX separator). -/
def splitOnSep : List Char → List (List Char)
  | [] => [[]]
  | c :: rest =>
    let r := splitOnSep rest
    if c = '/' then [] :: r
    else
      match r with
      | s :: ss => (c :: s) :: ss
      | [] => [[c]]

/-- Modelled from the spec: the segment loop of the std `normalizeString`.
Empty and `.` segments are dropped; `..` pops the previous segment unless
that segment is itself `..` or there is none, in which case `..` is kept
only when `allowAboveRoot` is set (i.e. for relative paths).
The accumulator holds the processed segments in reverse. -/
def normSegs (allowAboveRoot : Bool) : List (List Char) → List (List Char) → List (List Char)
  | acc, [] => acc.reverse
  | acc, seg :: rest =>
    if seg = [] ∨ seg = ['.'] then
      normSegs allowAboveRoot acc rest
    else if seg = ['.', '.'] then
      match acc with
      | top :: acc' =>
        if top = ['.', '.'] then
          if allowAboveRoot then normSegs allowAboveRoot (seg :: acc) rest
          else normSegs allowAboveRoot acc rest
        else normSegs allowAboveRoot acc' rest
      | [] =>
        if allowAboveRoot then normSegs allowAboveRoot [seg] rest
        else normSegs allowAboveRoot [] rest
    else
      normSegs allowAboveRoot (seg :: acc) rest

/-- Rejoin segments with `/`. -/
def segsJoin : List (List Char) → List Char
  | [] => []
  | [s] => s
  | s :: rest => s ++ '/' :: segsJoin rest

/-- Modelled from the spec: std POSIX `normalize` on character lists. -/
def normalizeChars (p : List Char) : List Char :=
  match p with
  | [] => ['.']
  | c :: rest =>
    let isAbs : Bool := c = '/'
    let trailing : Bool := (c :: rest).getLast (by simp) = '/'
    let body := segsJoin (normSegs (!isAbs) [] (splitOnSep (c :: rest)))
    let body := if body.isEmpty && !isAbs then ['.'] else body
    let body := if !body.isEmpty && trailing then body ++ ['/'] else body
    if isAbs then '/' :: body else body

/-- Modelled from the spec: std POSIX `join`: drop empty components, glue
with `/`, normalize; with no non-empty component the result is `.`. -/
def pathJoin (paths : List String) : String :=
  match paths.filter (fun p => p ≠ "") with
  | [] => "."
  | p :: rest =>
    String.mk (normalizeChars (List.intercalate ['/'] ((p :: rest).map String.data)))

/-- Modelled from the spec: `normalizePath` from `utils.ts` normalizes
platform path separators to `/`; with the POSIX separator this only
rewrites backslashes (and is the identity on slash-separated paths). -/
def normalizePath (s : String) : String :=
  String.mk (s.data.map (fun c => if c = '\\' then '/' else c))

/-! ## Events and listeners -/

/-- A listener registered on the event bus: either a callable (identified,
like a JS function reference, by an id) or the name of a script
(`EventListener | string` in the source). -/
inductive Listener where
  | callable (id : Nat)
  | name (s : String)
deriving DecidableEq, Repr

/-- Behaviour of the world outside the orchestrator: what each named
script's run reports, and what each callable listener returns for an event
type (`none` models a JS `undefined` return). -/
structure Env where
  scriptsRun : String → Bool
  fnResult : Nat → String → Option Bool

/-- JS `Set.prototype.add` on an insertion-ordered set represented as a
duplicate-free list: a new element is appended, an existing one leaves the
set (and its position) unchanged. -/
def setAdd (s : List Listener) (l : Listener) : List Listener :=
  if l ∈ s then s else s ++ [l]

/-- JS `Map.prototype.get` on an insertion-ordered association list. -/
def mapGet (m : List (String × List Listener)) (t : String) : Option (List Listener) :=
  (m.find? (fun e => e.1 = t)).map (fun e => e.2)

/-- JS `Map.prototype.set`: replace in place, else append. -/
def mapSet : List (String × List Listener) → String → List Listener → List (String × List Listener)
  | [], t, v => [(t, v)]
  | (k, w) :: rest, t, v =>
    if k = t then (t, v) :: rest else (k, w) :: mapSet rest t v

/-! ## The site state -/

/-- Metrics mode from the options: `false`, `true`, or a path string. -/
inductive MetricsOpt where
  | off
  | doPrint
  | savePath (p : String)
deriving DecidableEq, Repr

/-- A loaded page: its source location (`src.path` + `src.ext`) and the
`data.url` the renderer resolved for it. -/
structure Page where
  srcPath : String
  srcExt : String
  dataUrl : String
deriving DecidableEq, Repr

/-- The `LumeSite` state: the merged options the claims need, the listener
registry, the loaded pages, the ordered static-file mappings and the
ignored path prefixes (the latter two live in the `SiteSource`
collaborator; the spec fixes their contracts). -/
@[ext]
structure LumeSite where
  cwd : String
  srcDir : String
  destDir : String
  locationPathname : String
  locationOrigin : String
  metricsOpt : MetricsOpt
  listeners : List (String × List Listener)
  pages : List Page
  staticFiles : List (String × String)
  ignored : List String
deriving Repr

/-- Modelled from the spec: `SiteSource.isStatic` returns the first
registered static mapping whose source prefix is a prefix of the path
(mappings are tested in registration order; the first prefix match wins). -/
def isStatic (staticFiles : List (String × String)) (path : String) : Option (String × String) :=
  staticFiles.find? (fun e => strStarts path e.1)

/-- Modelled from the spec: `SiteSource.isIgnored` holds when some ignored
path prefix is a prefix of the path. -/
def isIgnored (ignored : List String) (path : String) : Bool :=
  ignored.any (fun pre => strStarts path pre)

namespace LumeSite

/-- Source `addEventListener(type, listener)`: fetch (or create) the listener set
for the type, add the listener, store the set back. -/
def addEventListener (site : LumeSite) (t : String) (l : Listener) : LumeSite :=
  let cur := (mapGet site.listeners t).getD []
  { site with listeners := mapSet site.listeners t (setAdd cur l) }

/-- Source `run(name)`: delegate to the `ScriptRunner` collaborator (modelled from
the spec: the command runner reports a boolean success). -/
def run (env : Env) (name : String) : Bool :=
  env.scriptsRun name

/-- The listener loop of `dispatchEvent`: a string listener is run as a
named script, and a `false` success aborts with `false`; a callable is
invoked with the event, and a result strictly equal to `false` aborts with
`false`; otherwise the loop continues and finally reports `true`. -/
def dispatchList (env : Env) (t : String) : List Listener → Bool
  | [] => true
  | .name s :: rest =>
    if run env s then dispatchList env t rest else false
  | .callable i :: rest =>
    if env.fnResult i t == some false then false else dispatchList env t rest

/-- The listeners the loop of `dispatchEvent` actually invokes, in order
(the listener that aborts the loop is itself invoked). -/
def dispatchListTrace (env : Env) (t : String) : List Listener → List Listener
  | [] => []
  | .name s :: rest =>
    if run env s then .name s :: dispatchListTrace env t rest else [.name s]
  | .callable i :: rest =>
    if env.fnResult i t == some false then [.callable i]
    else .callable i :: dispatchListTrace env t rest

/-- Source `dispatchEvent(event)`: with no listener set registered for the
event's type the dispatch trivially succeeds, otherwise the listener loop
decides the result. -/
def dispatchEvent (env : Env) (site : LumeSite) (t : String) : Bool :=
  match mapGet site.listeners t with
  | none => true
  | some ls => dispatchList env t ls

/-- The listeners `dispatchEvent` invokes, in order. -/
def dispatchTrace (env : Env) (site : LumeSite) (t : String) : List Listener :=
  match mapGet site.listeners t with
  | none => []
  | some ls => dispatchListTrace env t ls

end LumeSite

/-- The outcome of one listener as the spec words it: a name reference is
resolved through the command runner and that run's boolean success is the
outcome; a callable's returned value is the outcome except that a returned
`undefined` counts as success (only a strict `false` is failure). -/
def listenerOutcomeSpec (env : Env) (t : String) : Listener → Bool
  | .name s => env.scriptsRun s
  | .callable i =>
    match env.fnResult i t with
    | none => true
    | some b => b

/-! ## The update classifier

The decision structure of the per-file loop of `LumeSite.update`
(lines 238-269): static mapping first, then the ignored set, then the
`_data` pattern, then the hidden-segment check, else the generic reload. -/

/-- One character of the regex class `\w`. -/
def isWordChar (c : Char) : Bool :=
  ('a' ≤ c ∧ c ≤ 'z') ∨ ('A' ≤ c ∧ c ≤ 'Z') ∨ ('0' ≤ c ∧ c ≤ '9') ∨ c = '_'

/-- The tail admitted after `/_data` by the regex
`/\/_data(?:\.\w+$|\/)/`: either a further `/`, or a `.` followed by a
non-empty run of word characters reaching the end of the string. -/
def dataTail (post : List Char) : Bool :=
  match post with
  | '/' :: _ => true
  | '.' :: e => !e.isEmpty && e.all isWordChar
  | _ => false

/-- A match of the regex `/\/_data(?:\.\w+$|\/)/` anchored at the head of
the character list. -/
def dataMatchAt (l : List Char) : Bool :=
  List.isPrefixOf ['/', '_', 'd', 'a', 't', 'a'] l && dataTail (l.drop 6)

/-- JS `RegExp.prototype.test` of `/\/_data(?:\.\w+$|\/)/`: a match at some
position of the string. -/
def dataScan : List Char → Bool
  | [] => false
  | c :: rest => dataMatchAt (c :: rest) || dataScan rest

/-- The hidden-segment check of the update loop:
`normalized.includes("/_") || normalized.includes("/.")`. -/
def hiddenCheck (normalized : String) : Bool :=
  strHasSub normalized "/_" || strHasSub normalized "/."

/-- The five handling classes of the update loop. -/
inductive UpdateClass where
  | Static (src dst : String)
  | Ignored
  | DataReload
  | HiddenSkip
  | GenericReload
deriving DecidableEq, Repr

/-- The classification decided by the body of the update loop, in the
source's order of checks: static mapping, ignored set, `_data` pattern on
the normalized path, hidden segment on the normalized path, default. -/
def classify (site : LumeSite) (file : String) : UpdateClass :=
  match isStatic site.staticFiles file with
  | some (f, t) => .Static f t
  | none =>
    if isIgnored site.ignored file then .Ignored
    else
      let normalized := normalizePath file
      if dataScan normalized.data then .DataReload
      else if hiddenCheck normalized then .HiddenSkip
      else .GenericReload

/-! ## Pipeline traces -/

/-- One observable operation of a pipeline run: an event dispatch (with
its result), a metric phase boundary, or a collaborator call. -/
inductive Op where
  | dispatch (t : String) (result : Bool)
  | metricStart (label : String)
  | metricStop
  | clear
  | copyFile (src dst : String)
  | loadDirectory
  | buildPages
  | loadFile (path : String)
  | saveAllConcurrent
  | metricsSave (path : String)
  | metricsPrint
deriving DecidableEq, Repr

/-- The action the update loop performs for a file of a given class:
a static file is copied to `join(to, file.slice(from.length))`, a data or
generic file is reloaded through the loader, ignored and hidden files get
no action. -/
def classAction (file : String) : UpdateClass → List Op
  | .Static f t => [Op.copyFile file (pathJoin [t, file.drop f.length])]
  | .Ignored => []
  | .DataReload => [Op.loadFile file]
  | .HiddenSkip => []
  | .GenericReload => [Op.loadFile file]

namespace LumeSite

/-- The metrics flush at the end of `build`: save to `join(cwd, metrics)`
when the option is a string, print when it is otherwise truthy, nothing
when it is off. -/
def metricsFlush (site : LumeSite) : List Op :=
  match site.metricsOpt with
  | .savePath p => [Op.metricsSave (pathJoin [site.cwd, p])]
  | .doPrint => [Op.metricsPrint]
  | .off => []

/-- The trace of `build()` (lines 191-233): build metric, `beforeBuild`
dispatch, clear, copy of every static mapping in registration order (as a
timed phase), full directory load, render of all pages, `beforeSave`
dispatch, concurrent save of all pages, build metric stop, `afterBuild`
dispatch, metrics flush. The dispatch results are recorded but never
branch on. -/
def build (env : Env) (site : LumeSite) : List Op :=
  [Op.metricStart "Build (entire site)",
   Op.dispatch "beforeBuild" (dispatchEvent env site "beforeBuild"),
   Op.clear,
   Op.metricStart "Copy (all files)"]
  ++ site.staticFiles.map (fun e => Op.copyFile e.1 e.2)
  ++ [Op.metricStop,
      Op.metricStart "Load (all pages)", Op.loadDirectory, Op.metricStop,
      Op.metricStart "Preprocess + render + process (all pages)",
      Op.buildPages, Op.metricStop,
      Op.dispatch "beforeSave" (dispatchEvent env site "beforeSave"),
      Op.metricStart "Save (all pages)", Op.saveAllConcurrent, Op.metricStop,
      Op.metricStop,
      Op.dispatch "afterBuild" (dispatchEvent env site "afterBuild")]
  ++ site.metricsFlush

/-- The trace of `update(files)` (lines 235-278): `beforeUpdate` dispatch,
the per-file classify-and-act loop in the iteration order of the changed
set, render of all pages, `beforeSave` dispatch, concurrent save,
`afterUpdate` dispatch. -/
def update (env : Env) (site : LumeSite) (files : List String) : List Op :=
  Op.dispatch "beforeUpdate" (dispatchEvent env site "beforeUpdate")
  :: (files.flatMap (fun f => classAction f (classify site f))
      ++ [Op.buildPages,
          Op.dispatch "beforeSave" (dispatchEvent env site "beforeSave"),
          Op.saveAllConcurrent,
          Op.dispatch "afterUpdate" (dispatchEvent env site "afterUpdate")])

end LumeSite

/-! ## The URL resolver -/

/-- The first guard of `url`: relative navigation, query-only,
fragment-only and protocol-relative paths are returned unchanged. -/
def isUntouchedPrefix (path : String) : Bool :=
  strStarts path "./" || strStarts path "../" || strStarts path "?" ||
  strStarts path "#" || strStarts path "//"

/-- The failure of `url`: the `Exception("Source file not found", {path})`
carrying the offending path. -/
inductive UrlError where
  | sourceNotFound (path : String)
deriving DecidableEq, Repr

namespace LumeSite

/-- The tail of `url`: prefix the path with the location's pathname unless
it already starts with it, then prepend the origin when an absolute URL is
requested. -/
def urlFinalize (site : LumeSite) (absolute : Bool) (p : String) : String :=
  let p := if strStarts p site.locationPathname then p
           else pathJoin [site.locationPathname, p]
  if absolute then site.locationOrigin ++ p else p

/-- Source `url(path, absolute)` (lines 284-329). `decodeF` models the platform
builtin `decodeURI`; `parseURL` models the WHATWG `URL` constructor
(`some href` when parsing succeeds). With the POSIX separator the
source's `replaceAll("/", SEP)` is the identity, so the decoded source
path is `decodeURI(path.slice(1))`. -/
def url (decodeF : String → String) (parseURL : String → Option String)
    (site : LumeSite) (path : String) (absolute : Bool) : Except UrlError String :=
  if isUntouchedPrefix path then
    .ok path
  else if strStarts path "~/" then
    let p := decodeF (path.drop 1)
    match site.pages.find? (fun pg => pg.srcPath ++ pg.srcExt == p) with
    | some pg => .ok (site.urlFinalize absolute pg.dataUrl)
    | none =>
      match isStatic site.staticFiles p with
      | some (f, t) =>
        .ok (site.urlFinalize absolute (normalizePath (pathJoin [t, p.drop f.length])))
      | none => .error (.sourceNotFound p)
  else
    match parseURL path with
    | some href => .ok href
    | none => .ok (site.urlFinalize absolute path)

/-! ## Registration and construction -/

/-- Source `copy(from, to)`: register the static mapping
`(join("/", from), join("/", to))` (modelled from the spec:
`SiteSource.addStaticFile` appends to the ordered mapping sequence). -/
def copy (site : LumeSite) (f t : String) : LumeSite :=
  { site with staticFiles := site.staticFiles ++ [(pathJoin ["/", f], pathJoin ["/", t])] }

/-- Source `copy(from)` with the destination argument omitted: the source's
default parameter `to = from`. -/
def copyDefault (site : LumeSite) (f : String) : LumeSite :=
  site.copy f f

/-- Source `ignore(...paths)`: add `join("/", path)` for each path to the ignored
set (modelled from the spec: `SiteSource.addIgnoredPath` adds a prefix to
the ignored path set). -/
def ignore (site : LumeSite) (paths : List String) : LumeSite :=
  { site with ignored := site.ignored ++ paths.map (fun p => pathJoin ["/", p]) }

/-- Source `src()` and `dest()` with no extra components:
`join(cwd, options.src)` and `join(cwd, options.dest)`. -/
def srcRoot (site : LumeSite) : String :=
  pathJoin [site.cwd, site.srcDir]

/-- See `srcRoot`. -/
def destRoot (site : LumeSite) : String :=
  pathJoin [site.cwd, site.destDir]

end LumeSite

/-- The constructor (lines 64-76): start from the merged options with
empty registries, then ignore the destination directory when the resolved
destination lies inside the resolved source
(`if (this.dest().startsWith(this.src())) this.ignore(this.options.dest)`). -/
def mkSite (cwd src dest pathname origin : String) (m : MetricsOpt) : LumeSite :=
  let base : LumeSite :=
    { cwd := cwd, srcDir := src, destDir := dest,
      locationPathname := pathname, locationOrigin := origin,
      metricsOpt := m, listeners := [], pages := [],
      staticFiles := [], ignored := [] }
  if strStarts base.destRoot base.srcRoot then base.ignore [dest] else base

/-- A site with the default options of `site.ts` (`cwd` is the process
working directory, here a representative absolute path): `src: "./"`,
`dest: "./_site"`, location `http://localhost`, metrics off. -/
def defaultSite : LumeSite :=
  mkSite "/project" "./" "./_site" "/" "http://localhost" .off

/-! ## Event-bus lemmas -/

/-- One step of the listener loop, phrased through the spec's outcome of a
single listener. -/
theorem dispatchList_cons (env : Env) (t : String) (l : Listener) (rest : List Listener) :
    LumeSite.dispatchList env t (l :: rest) =
      (if listenerOutcomeSpec env t l then LumeSite.dispatchList env t rest else false) := by
  cases l with
  | name s =>
    simp [LumeSite.dispatchList, LumeSite.run, listenerOutcomeSpec]
  | callable i =>
    rcases h : env.fnResult i t with _ | b
    · simp [LumeSite.dispatchList, listenerOutcomeSpec, h]
    · cases b <;> simp [LumeSite.dispatchList, listenerOutcomeSpec, h]

/-- One step of the invocation trace of the listener loop. -/
theorem dispatchListTrace_cons (env : Env) (t : String) (l : Listener) (rest : List Listener) :
    LumeSite.dispatchListTrace env t (l :: rest) =
      (if listenerOutcomeSpec env t l then l :: LumeSite.dispatchListTrace env t rest else [l]) := by
  cases l with
  | name s =>
    simp [LumeSite.dispatchListTrace, LumeSite.run, listenerOutcomeSpec]
  | callable i =>
    rcases h : env.fnResult i t with _ | b
    · simp [LumeSite.dispatchListTrace, listenerOutcomeSpec, h]
    · cases b <;> simp [LumeSite.dispatchListTrace, listenerOutcomeSpec, h]

/-- The listener loop succeeds exactly when every registered listener's
outcome is success. -/
theorem dispatchList_eq_all (env : Env) (t : String) (ls : List Listener) :
    LumeSite.dispatchList env t ls = ls.all (listenerOutcomeSpec env t) := by
  induction ls with
  | nil => rfl
  | cons l rest ih =>
    rw [dispatchList_cons, List.all_cons, ih]
    cases h : listenerOutcomeSpec env t l <;> simp

/-- The loop invokes the longest all-succeeding prefix of the registered
listeners followed by the first failing listener, when there is one. -/
theorem dispatchListTrace_eq (env : Env) (t : String) (ls : List Listener) :
    LumeSite.dispatchListTrace env t ls =
      ls.takeWhile (listenerOutcomeSpec env t) ++
        (ls.dropWhile (listenerOutcomeSpec env t)).take 1 := by
  induction ls with
  | nil => rfl
  | cons l rest ih =>
    rw [dispatchListTrace_cons]
    cases h : listenerOutcomeSpec env t l
    · simp [List.takeWhile_cons, List.dropWhile_cons, h]
    · simp [List.takeWhile_cons, List.dropWhile_cons, h, ih]

/-- A loop whose listeners all succeed invokes every one of them. -/
theorem dispatchListTrace_all_ok (env : Env) (t : String) (ls : List Listener)
    (h : ∀ l ∈ ls, listenerOutcomeSpec env t l = true) :
    LumeSite.dispatchListTrace env t ls = ls := by
  rw [dispatchListTrace_eq, List.takeWhile_eq_self_iff.mpr h]
  simp [List.dropWhile_eq_nil_iff.mpr fun l hl => h l hl]

/-! ## Registry lemmas -/

/-- A key just set is found, with the value just stored. -/
theorem mapGet_mapSet_self (m : List (String × List Listener)) (t : String) (v : List Listener) :
    mapGet (mapSet m t v) t = some v := by
  induction m with
  | nil => simp [mapGet, mapSet, List.find?]
  | cons e rest ih =>
    obtain ⟨k, w⟩ := e
    by_cases h : k = t
    · simp [mapSet, h, mapGet, List.find?]
    · simpa [mapSet, h, mapGet, List.find?] using ih

/-- Setting the same key twice keeps only the second value. -/
theorem mapSet_mapSet (m : List (String × List Listener)) (t : String) (v w : List Listener) :
    mapSet (mapSet m t v) t w = mapSet m t w := by
  induction m with
  | nil => simp [mapSet]
  | cons e rest ih =>
    obtain ⟨k, x⟩ := e
    by_cases h : k = t
    · simp [mapSet, h]
    · simp [mapSet, h, ih]

/-- An added listener is a member of the set. -/
theorem mem_setAdd_self (s : List Listener) (l : Listener) : l ∈ setAdd s l := by
  by_cases h : l ∈ s <;> simp [setAdd, h]

/-- Adding the same listener twice is the same as adding it once. -/
theorem setAdd_idem (s : List Listener) (l : Listener) :
    setAdd (setAdd s l) l = setAdd s l := by
  by_cases h : l ∈ s <;> simp [setAdd, h]

/-- Adding a fresh listener appends it. -/
theorem setAdd_not_mem (s : List Listener) (l : Listener) (h : l ∉ s) :
    setAdd s l = s ++ [l] := by
  simp [setAdd, h]

/-- The listener registry after a registration. -/
theorem addEventListener_listeners (site : LumeSite) (t : String) (l : Listener) :
    (site.addEventListener t l).listeners =
      mapSet site.listeners t (setAdd ((mapGet site.listeners t).getD []) l) := rfl

/-! ## Claim C1 -/

/-- C1: for every event and every set of listeners registered for that
event's type, `dispatchEvent` invokes the listeners sequentially in
registration (insertion) order — the trace is the all-succeeding prefix of
the registered list followed by the first failing listener — and returns
`false` exactly when some listener fails, so it stops at the first failure
without invoking any listener registered after it; with no listener
registered for the type it returns `true` (and invokes nothing). -/
theorem dispatchEvent_order_shortcircuit (env : Env) (site : LumeSite) (t : String) :
    (mapGet site.listeners t = none →
      LumeSite.dispatchEvent env site t = true ∧ LumeSite.dispatchTrace env site t = [])
    ∧ (∀ ls, mapGet site.listeners t = some ls →
        LumeSite.dispatchEvent env site t = ls.all (listenerOutcomeSpec env t)
        ∧ LumeSite.dispatchTrace env site t =
            ls.takeWhile (listenerOutcomeSpec env t) ++
              (ls.dropWhile (listenerOutcomeSpec env t)).take 1) := by
  constructor
  · intro h
    simp [LumeSite.dispatchEvent, LumeSite.dispatchTrace, h]
  · intro ls h
    simp [LumeSite.dispatchEvent, LumeSite.dispatchTrace, h,
      dispatchList_eq_all, dispatchListTrace_eq]

/-- An environment for concrete dispatch runs: the script named `veto`
fails, every other script and every callable succeeds. -/
def exEnv : Env :=
  { scriptsRun := fun s => !(s == "veto"), fnResult := fun _ _ => some true }

/-- A site with three `beforeBuild` listeners, the second of which vetoes
under `exEnv`. -/
def exBusSite : LumeSite :=
  ((defaultSite.addEventListener "beforeBuild" (.callable 0)).addEventListener
      "beforeBuild" (.name "veto")).addEventListener "beforeBuild" (.callable 1)

/-- Witness for C1: with listeners `[callable 0, "veto", callable 1]` the
dispatch returns `false` and invokes exactly the first two, in order. -/
theorem dispatchEvent_order_shortcircuit_witness :
    LumeSite.dispatchEvent exEnv exBusSite "beforeBuild" = false
    ∧ LumeSite.dispatchTrace exEnv exBusSite "beforeBuild" =
        [.callable 0, .name "veto"] := by
  have h := (dispatchEvent_order_shortcircuit exEnv exBusSite "beforeBuild").2
    [.callable 0, .name "veto", .callable 1] (by decide)
  exact ⟨h.1.trans (by decide), h.2.trans (by decide)⟩

/-! ## Claim C7 -/

/-- C7: the loop of `dispatchEvent` treats each listener by its outcome: a
name reference's outcome is the boolean success of running the named
command through the command runner (`run`), a callable's outcome is its
returned value except that a returned `undefined` (`none`) counts as
success — only a strict `false` counts as failure; the loop continues
exactly when the outcome is success. -/
theorem dispatch_listener_resolution (env : Env) (t s : String) (i : Nat)
    (l : Listener) (rest : List Listener) :
    LumeSite.dispatchList env t (l :: rest) =
      (if listenerOutcomeSpec env t l then LumeSite.dispatchList env t rest else false)
    ∧ listenerOutcomeSpec env t (.name s) = LumeSite.run env s
    ∧ listenerOutcomeSpec env t (.callable i) = !(env.fnResult i t == some false) := by
  refine ⟨dispatchList_cons env t l rest, rfl, ?_⟩
  rcases h : env.fnResult i t with _ | b
  · simp [listenerOutcomeSpec, h]
  · cases b <;> simp [listenerOutcomeSpec, h]

/-! ## Claim C8 -/

/-- C8: registering the same listener identity twice for the same event
type is idempotent — the whole site state after both registrations equals
the state after one — and for a listener not previously registered the
resulting listener set holds it exactly once, so a dispatch in which every
listener succeeds invokes it exactly once. -/
theorem addEventListener_idempotent (env : Env) (site : LumeSite) (t : String) (l : Listener)
    (hfresh : l ∉ (mapGet site.listeners t).getD [])
    (hok : ∀ l' ∈ (mapGet ((site.addEventListener t l).addEventListener t l).listeners t).getD [],
        listenerOutcomeSpec env t l' = true) :
    (site.addEventListener t l).addEventListener t l = site.addEventListener t l
    ∧ ((mapGet ((site.addEventListener t l).addEventListener t l).listeners t).getD []).count l = 1
    ∧ (LumeSite.dispatchTrace env ((site.addEventListener t l).addEventListener t l) t).count l
        = 1 := by
  have hset : (mapGet (site.addEventListener t l).listeners t).getD []
      = setAdd ((mapGet site.listeners t).getD []) l := by
    rw [addEventListener_listeners, mapGet_mapSet_self]
    rfl
  have hidem : (site.addEventListener t l).addEventListener t l = site.addEventListener t l := by
    ext1
    all_goals try rfl
    rw [addEventListener_listeners (site.addEventListener t l), hset, setAdd_idem,
      addEventListener_listeners, mapSet_mapSet]
  have hlist : (mapGet ((site.addEventListener t l).addEventListener t l).listeners t).getD []
      = ((mapGet site.listeners t).getD []) ++ [l] := by
    rw [hidem, hset, setAdd_not_mem ((mapGet site.listeners t).getD []) l hfresh]
  have hcount : (((mapGet site.listeners t).getD []) ++ [l]).count l = 1 := by
    rw [List.count_append, List.count_eq_zero.mpr hfresh]
    simp
  refine ⟨hidem, by rw [hlist]; exact hcount, ?_⟩
  have hmem : mapGet ((site.addEventListener t l).addEventListener t l).listeners t
      = some (((mapGet site.listeners t).getD []) ++ [l]) := by
    rw [hidem, addEventListener_listeners, mapGet_mapSet_self,
      setAdd_not_mem ((mapGet site.listeners t).getD []) l hfresh]
  have htrace : LumeSite.dispatchTrace env ((site.addEventListener t l).addEventListener t l) t
      = ((mapGet site.listeners t).getD []) ++ [l] := by
    rw [LumeSite.dispatchTrace, hmem]
    apply dispatchListTrace_all_ok
    intro l' hl'
    exact hok l' (by rw [hlist]; exact hl')
  rw [htrace]
  exact hcount

/-- Witness for C8: registering `callable 0` twice on the empty default
site equals registering it once, and an all-succeeding dispatch invokes it
exactly once. -/
theorem addEventListener_idempotent_witness :
    ((defaultSite.addEventListener "beforeBuild" (.callable 0)).addEventListener
        "beforeBuild" (.callable 0)
      = defaultSite.addEventListener "beforeBuild" (.callable 0))
    ∧ (LumeSite.dispatchTrace exEnv
        ((defaultSite.addEventListener "beforeBuild" (.callable 0)).addEventListener
          "beforeBuild" (.callable 0)) "beforeBuild").count (.callable 0) = 1 := by
  have h := addEventListener_idempotent exEnv defaultSite "beforeBuild" (.callable 0)
    (by decide) ?_
  · exact ⟨h.1, h.2.2⟩
  · intro l' hl'
    have : l' = Listener.callable 0 := by
      revert hl'
      have : (mapGet ((defaultSite.addEventListener "beforeBuild"
          (.callable 0)).addEventListener "beforeBuild" (.callable 0)).listeners
          "beforeBuild").getD [] = [Listener.callable 0] := by decide
      rw [this]
      intro hl'
      simpa using hl'
    subst this
    decide

/-! ## Claim C2 -/

/-- C2: classification is total (the function yields exactly one of the
five classes) and the checks dominate in the source's fixed order: a
static-mapping match wins outright; otherwise the ignored set; otherwise
the `_data` pattern on the normalized path; otherwise the hidden-segment
check; otherwise the generic reload. Each case only constrains the checks
before it, so an earlier class wins even when later predicates also
apply. -/
theorem classify_total_priority (site : LumeSite) (file : String) :
    (∀ f t, isStatic site.staticFiles file = some (f, t) →
      classify site file = .Static f t)
    ∧ (isStatic site.staticFiles file = none → isIgnored site.ignored file = true →
        classify site file = .Ignored)
    ∧ (isStatic site.staticFiles file = none → isIgnored site.ignored file = false →
        dataScan (normalizePath file).data = true → classify site file = .DataReload)
    ∧ (isStatic site.staticFiles file = none → isIgnored site.ignored file = false →
        dataScan (normalizePath file).data = false → hiddenCheck (normalizePath file) = true →
        classify site file = .HiddenSkip)
    ∧ (isStatic site.staticFiles file = none → isIgnored site.ignored file = false →
        dataScan (normalizePath file).data = false → hiddenCheck (normalizePath file) = false →
        classify site file = .GenericReload) := by
  refine ⟨?_, ?_, ?_, ?_, ?_⟩ <;> intros <;> simp_all [classify]

/-- A site with a static mapping for `/assets` that is also in the ignored
set, to exercise the priority of the checks. -/
def exPrioritySite : LumeSite :=
  { defaultSite with staticFiles := [("/assets", "/assets")], ignored := ["/assets"] }

/-- Witness for C2: a path that matches the static mapping, lies under an
ignored prefix and contains a hidden segment is still classified
`Static`. -/
theorem classify_total_priority_witness :
    classify exPrioritySite "/assets/_hidden/logo.png" = .Static "/assets" "/assets" :=
  (classify_total_priority exPrioritySite "/assets/_hidden/logo.png").1
    "/assets" "/assets" (by decide)

/-! ## Claim C6 -/

/-- A match of the `_data` regex anchored at the head, characterized: the
list is the literal `/_data` followed by an admissible tail. -/
theorem dataMatchAt_iff (l : List Char) :
    dataMatchAt l = true ↔
      ∃ post, l = ['/', '_', 'd', 'a', 't', 'a'] ++ post ∧ dataTail post = true := by
  rw [dataMatchAt, Bool.and_eq_true, List.isPrefixOf_iff_prefix]
  constructor
  · rintro ⟨⟨post, hpost⟩, htail⟩
    refine ⟨post, hpost.symm, ?_⟩
    rw [← hpost] at htail
    rwa [show (['/', '_', 'd', 'a', 't', 'a'] ++ post).drop 6 = post from rfl] at htail
  · rintro ⟨post, rfl, htail⟩
    exact ⟨⟨post, rfl⟩, htail⟩

/-- The regex test succeeds exactly when the string decomposes around a
literal `/_data` with an admissible tail. -/
theorem dataScan_iff (l : List Char) :
    dataScan l = true ↔
      ∃ pre post, l = pre ++ ['/', '_', 'd', 'a', 't', 'a'] ++ post ∧ dataTail post = true := by
  induction l with
  | nil =>
    constructor
    · intro h
      exact absurd h (by decide)
    · rintro ⟨pre, post, h, -⟩
      simp at h
  | cons c rest ih =>
    rw [show dataScan (c :: rest) = (dataMatchAt (c :: rest) || dataScan rest) from rfl,
      Bool.or_eq_true, ih, dataMatchAt_iff]
    constructor
    · rintro (⟨post, h, hp⟩ | ⟨pre, post, h, hp⟩)
      · exact ⟨[], post, by simpa using h, hp⟩
      · exact ⟨c :: pre, post, by simp [h], hp⟩
    · rintro ⟨pre, post, h, hp⟩
      cases pre with
      | nil => exact Or.inl ⟨post, by simpa using h, hp⟩
      | cons p pre' =>
        rw [List.cons_append, List.cons_append] at h
        injection h with h1 h2
        exact Or.inr ⟨pre', post, h2, hp⟩

/-- The classifier, past the static and ignored checks, decides
`DataReload` exactly by the regex test. -/
theorem classify_data_iff (site : LumeSite) (file : String)
    (h1 : isStatic site.staticFiles file = none)
    (h2 : isIgnored site.ignored file = false) :
    classify site file = .DataReload ↔ dataScan (normalizePath file).data = true := by
  cases h3 : dataScan (normalizePath file).data
  · simp only [classify, h1, h2, h3, Bool.false_eq_true, if_false, iff_false]
    split <;> simp
  · simp [classify, h1, h2, h3]

/-- The claim's reading of the tail after `_data`, with "any extension":
either a further `/`, or a `.` followed by a non-empty extension free of
separators reaching the end of the path. -/
def dataTailClaim (post : List Char) : Bool :=
  match post with
  | '/' :: _ => true
  | '.' :: e => !e.isEmpty && e.all (fun c => !(c = '/'))
  | _ => false

/-- Counterexample to C6 as stated: the path `/_data.x-y` is a `_data`
file with the extension `x-y`, yet the source's regex `\w+` refuses the
hyphen, so the path is not classified `DataReload` (it falls through to
the hidden-segment skip). -/
theorem classify_data_counterexample :
    ¬(classify defaultSite "/_data.x-y" = UpdateClass.DataReload ↔
      ∃ pre post, (normalizePath "/_data.x-y").data = pre ++ ['/', '_', 'd', 'a', 't', 'a'] ++ post
        ∧ dataTailClaim post = true) := by
  intro h
  have hc : classify defaultSite "/_data.x-y" = UpdateClass.DataReload :=
    h.mpr ⟨[], ['.', 'x', '-', 'y'], by decide, by decide⟩
  exact absurd hc (by decide)

/-- C6 (amended): for a changed path that is neither a static-mapping
match nor ignored, the path is classified `DataReload` exactly when its
normalized form contains the segment `_data` either as a directory
(followed by `/`) or as a file whose extension is a non-empty run of word
characters extending to the end of the path; such a path triggers a
single-entry reload through the loader. -/
theorem classify_dataReload (site : LumeSite) (file : String)
    (h1 : isStatic site.staticFiles file = none)
    (h2 : isIgnored site.ignored file = false) :
    (classify site file = .DataReload ↔
      ∃ pre post, (normalizePath file).data = pre ++ ['/', '_', 'd', 'a', 't', 'a'] ++ post
        ∧ dataTail post = true)
    ∧ classAction file UpdateClass.DataReload = [Op.loadFile file] := by
  refine ⟨?_, rfl⟩
  rw [classify_data_iff site file h1 h2, dataScan_iff]

/-- Witness for C6: the changed file `/_data/colors.yml` is classified
`DataReload`. -/
theorem classify_dataReload_witness :
    classify defaultSite "/_data/colors.yml" = UpdateClass.DataReload :=
  (classify_dataReload defaultSite "/_data/colors.yml" (by decide) (by decide)).1.mpr
    ⟨[], "/colors.yml".data, by decide, by decide⟩

/-! ## Claim C4 -/

/-- Forget the result recorded on a dispatch operation, keeping the event
type; every other operation is unchanged. -/
def eraseDispatchResult : Op → Op
  | .dispatch t _ => .dispatch t true
  | op => op

/-- C4: the phases of `build()` run in the fixed order — `beforeBuild`
dispatch, clear, copy of every static mapping in registration order, full
directory load, render of all pages, `beforeSave` dispatch, concurrent
save of all pages, `afterBuild` dispatch, metrics flush (with the
observational metric phase boundaries interleaved) — and, up to the
recorded dispatch results, the trace does not depend on the listener
environment at all: a `false` result of the `beforeBuild` or `beforeSave`
dispatch prevents no later phase. The same independence holds for the
`beforeUpdate` and `beforeSave` dispatches of `update()`. -/
theorem build_update_phase_order (env env' : Env) (site : LumeSite) (files : List String) :
    LumeSite.build env site =
      [Op.metricStart "Build (entire site)",
       Op.dispatch "beforeBuild" (LumeSite.dispatchEvent env site "beforeBuild"),
       Op.clear,
       Op.metricStart "Copy (all files)"]
      ++ site.staticFiles.map (fun e => Op.copyFile e.1 e.2)
      ++ [Op.metricStop,
          Op.metricStart "Load (all pages)", Op.loadDirectory, Op.metricStop,
          Op.metricStart "Preprocess + render + process (all pages)",
          Op.buildPages, Op.metricStop,
          Op.dispatch "beforeSave" (LumeSite.dispatchEvent env site "beforeSave"),
          Op.metricStart "Save (all pages)", Op.saveAllConcurrent, Op.metricStop,
          Op.metricStop,
          Op.dispatch "afterBuild" (LumeSite.dispatchEvent env site "afterBuild")]
      ++ site.metricsFlush
    ∧ (LumeSite.build env site).map eraseDispatchResult
        = (LumeSite.build env' site).map eraseDispatchResult
    ∧ LumeSite.update env site files =
        Op.dispatch "beforeUpdate" (LumeSite.dispatchEvent env site "beforeUpdate")
        :: (files.flatMap (fun f => classAction f (classify site f))
            ++ [Op.buildPages,
                Op.dispatch "beforeSave" (LumeSite.dispatchEvent env site "beforeSave"),
                Op.saveAllConcurrent,
                Op.dispatch "afterUpdate" (LumeSite.dispatchEvent env site "afterUpdate")])
    ∧ (LumeSite.update env site files).map eraseDispatchResult
        = (LumeSite.update env' site files).map eraseDispatchResult := by
  refine ⟨rfl, ?_, rfl, ?_⟩
  · simp [LumeSite.build, eraseDispatchResult, List.map_map, Function.comp]
  · simp [LumeSite.update, eraseDispatchResult, List.map_map, Function.comp]

/-! ## Claims C3 and C5 -/

/-- A true `startsWith` exposes the prefix decomposition. -/
theorem strStarts_data (s pre : String) (h : strStarts s pre = true) :
    ∃ t, s.data = pre.data ++ t := by
  rw [strStarts, List.isPrefixOf_iff_prefix] at h
  obtain ⟨t, ht⟩ := h
  exact ⟨t, ht.symm⟩

/-- A source-marker path takes none of the pass-through prefixes. -/
theorem isUntouchedPrefix_of_tilde (path : String) (t : List Char)
    (h : path.data = '~' :: '/' :: t) : isUntouchedPrefix path = false := by
  simp [isUntouchedPrefix, strStarts, h, List.isPrefixOf]

/-- Counterexample to C3 as stated: the source keeps the slash of the
marker (`path.slice(1)` strips only the tilde), so resolving
`~/blog/post.md` against an empty site raises `SourceNotFound` carrying
`/blog/post.md` — not `blog/post.md` as the claim has it. -/
theorem url_sourceNotFound_counterexample :
    LumeSite.url (fun s => s) (fun _ => none) defaultSite "~/blog/post.md" false
      = .error (.sourceNotFound "/blog/post.md")
    ∧ UrlError.sourceNotFound "/blog/post.md" ≠ UrlError.sourceNotFound "blog/post.md" :=
  ⟨by rfl, by decide⟩

/-- C3 (amended): for every path beginning with the source marker `~/`,
the resolver strips only the tilde — keeping the leading slash — and
decodes; when no loaded page's source path+extension equals that decoded
path and no static mapping's source prefix is a prefix of it, `url`
raises the source-not-found error carrying the decoded path (so
`~/blog/post.md` yields the error with path `/blog/post.md`). -/
theorem url_sourceNotFound (decodeF : String → String) (parseURL : String → Option String)
    (site : LumeSite) (path : String) (absolute : Bool)
    (h0 : strStarts path "~/" = true)
    (h1 : site.pages.find? (fun pg => pg.srcPath ++ pg.srcExt == decodeF (path.drop 1)) = none)
    (h2 : isStatic site.staticFiles (decodeF (path.drop 1)) = none) :
    LumeSite.url decodeF parseURL site path absolute =
      .error (.sourceNotFound (decodeF (path.drop 1))) := by
  obtain ⟨t, ht⟩ := strStarts_data path "~/" h0
  have hguard : isUntouchedPrefix path = false :=
    isUntouchedPrefix_of_tilde path t (by simpa using ht)
  simp [LumeSite.url, hguard, h0, h1, h2]

/-- Witness for C3: the amended theorem applied to `~/blog/post.md` on the
default (empty) site. -/
theorem url_sourceNotFound_witness :
    LumeSite.url (fun s => s) (fun _ => none) defaultSite "~/blog/post.md" true
      = .error (.sourceNotFound "/blog/post.md") :=
  (url_sourceNotFound (fun s => s) (fun _ => none) defaultSite "~/blog/post.md" true
    (by decide) (by decide) (by decide)).trans (by rfl)

/-- C5: for every source-marker path whose decoded form equals some loaded
page's source path+extension (the first such page found), `url` resolves
through that page — the result is `urlFinalize` of the page's `data.url`,
never the static-mapping branch and never the error — and when the page's
`data.url` already starts with the site's base pathname the result is
exactly the page's `data.url`, with the origin prepended when an absolute
URL is requested. -/
theorem url_page_hit (decodeF : String → String) (parseURL : String → Option String)
    (site : LumeSite) (path : String) (absolute : Bool) (pg : Page)
    (h0 : strStarts path "~/" = true)
    (h1 : site.pages.find? (fun q => q.srcPath ++ q.srcExt == decodeF (path.drop 1)) = some pg) :
    LumeSite.url decodeF parseURL site path absolute
      = .ok (site.urlFinalize absolute pg.dataUrl)
    ∧ (strStarts pg.dataUrl site.locationPathname = true →
        LumeSite.url decodeF parseURL site path absolute =
          .ok (if absolute then site.locationOrigin ++ pg.dataUrl else pg.dataUrl)) := by
  obtain ⟨t, ht⟩ := strStarts_data path "~/" h0
  have hguard : isUntouchedPrefix path = false :=
    isUntouchedPrefix_of_tilde path t (by simpa using ht)
  have hmain : LumeSite.url decodeF parseURL site path absolute
      = .ok (site.urlFinalize absolute pg.dataUrl) := by
    simp [LumeSite.url, hguard, h0, h1]
  refine ⟨hmain, fun hpre => ?_⟩
  rw [hmain, LumeSite.urlFinalize, if_pos hpre]

/-- A page as the renderer leaves it after a build of the default site. -/
def exPage : Page :=
  { srcPath := "/blog/post", srcExt := ".md", dataUrl := "/blog/post/" }

/-- The default site with `exPage` loaded. -/
def exPageSite : LumeSite :=
  { defaultSite with pages := [exPage] }

/-- Witness for C5: resolving `~/blog/post.md` on a site holding the page
returns the page's `data.url`, origin-qualified when absolute is
requested. -/
theorem url_page_hit_witness :
    LumeSite.url (fun s => s) (fun _ => none) exPageSite "~/blog/post.md" true
      = .ok "http://localhost/blog/post/" :=
  ((url_page_hit (fun s => s) (fun _ => none) exPageSite "~/blog/post.md" true exPage
    (by decide) (by decide)).2 (by decide)).trans (by rfl)

/-! ## Claim C9 -/

/-- C9: whenever the resolved destination root starts with the resolved
source root, the constructed site's ignored path set contains the
destination directory (as `join("/", options.dest)`), and every file under
that prefix is ignored — so a full load, which respects the ignored set,
never re-ingests previously emitted output. -/
theorem dest_auto_ignored (cwd src dest pathname origin : String) (m : MetricsOpt)
    (h : strStarts (pathJoin [cwd, dest]) (pathJoin [cwd, src]) = true) :
    pathJoin ["/", dest] ∈ (mkSite cwd src dest pathname origin m).ignored
    ∧ ∀ file, strStarts file (pathJoin ["/", dest]) = true →
        isIgnored (mkSite cwd src dest pathname origin m).ignored file = true := by
  have hsite : (mkSite cwd src dest pathname origin m).ignored = [pathJoin ["/", dest]] := by
    simp [mkSite, LumeSite.ignore, LumeSite.destRoot, LumeSite.srcRoot, h]
  constructor
  · rw [hsite]
    exact List.mem_singleton.mpr rfl
  · intro file hfile
    rw [hsite]
    simp [isIgnored, hfile]

/-- Witness for C9: with the default options (`src: "./"`,
`dest: "./_site"`) the destination resolves inside the source, `/_site`
is ignored, and a file under it is reported ignored. -/
theorem dest_auto_ignored_witness :
    pathJoin ["/", "./_site"] ∈ defaultSite.ignored
    ∧ isIgnored defaultSite.ignored "/_site/index.html" = true := by
  have h := dest_auto_ignored "/project" "./" "./_site" "/" "http://localhost" .off (by decide)
  exact ⟨h.1, h.2 "/_site/index.html" (by decide)⟩

/-! ## Claim C10 -/

/-- A root-joined path always begins with `/`. -/
theorem normalizeChars_abs (rest : List Char) :
    ∃ body, normalizeChars ('/' :: rest) = '/' :: body := by
  simp [normalizeChars]

/-- Joining any path onto the root `/` yields a path beginning with `/`. -/
theorem pathJoin_root_abs (p : String) : strStarts (pathJoin ["/", p]) "/" = true := by
  by_cases hp : p = ""
  · subst hp
    decide
  · have hfilter : (["/", p] : List String).filter (fun x => x ≠ "") = ["/", p] := by
      simp [hp]
    have hinter : List.intercalate ['/'] [("/" : String).data, p.data] = '/' :: '/' :: p.data := by
      simp [List.intercalate]
    rw [pathJoin, hfilter]
    obtain ⟨body, hbody⟩ := normalizeChars_abs ('/' :: p.data)
    simp only [List.map, hinter, hbody]
    simp [strStarts, List.isPrefixOf]

/-- Counterexample to C10 as stated: `copy("/assets")` registers the
mapping `("/assets", "/assets")` — `join` collapses the doubled slash —
whereas the claim's formula `"/"+p` would give `"//assets"`. -/
theorem copy_registration_counterexample :
    (defaultSite.copyDefault "/assets").staticFiles = [("/assets", "/assets")]
    ∧ ("/" ++ "/assets", "/" ++ "/assets") ≠ (("/assets" : String), ("/assets" : String)) :=
  ⟨by decide, by decide⟩

/-- C10 (amended): `copy(from, to)` registers the mapping
`(join("/", from), join("/", to))`; when the destination argument is
omitted it defaults to the source, so `copy(p)` registers
`(join("/", p), join("/", p))`. Both prefixes begin with `/`, but they are
normalized by the join, so they need not equal `"/" + p` verbatim. -/
theorem copy_registration (site : LumeSite) (f t p : String) :
    (site.copy f t).staticFiles
      = site.staticFiles ++ [(pathJoin ["/", f], pathJoin ["/", t])]
    ∧ (site.copyDefault p).staticFiles
        = site.staticFiles ++ [(pathJoin ["/", p], pathJoin ["/", p])]
    ∧ strStarts (pathJoin ["/", p]) "/" = true :=
  ⟨rfl, rfl, pathJoin_root_abs p⟩
